import Mathlib

/-!
Verification development for `src/visualize_ecosystem.py`.

The script loads a CSV table of per-timestep species populations
(`load_data`), prints per-species statistics and aggregate totals
(`print_statistics`), and renders two charts (`plot_all_populations`,
`plot_trophic_levels`).

Shallow embedding conventions:
- the pandas DataFrame is a `Table`: a header (`columns`) plus a list of
  rows, each row a list of rational cell values (the CSV holds integers;
  `ℚ` also carries the exact mean);
- `data[c]` (column extraction) is `Table.col`: it finds the first index
  of `c` in the header and projects every row there, raising `KeyError c`
  when the name is absent, exactly as pandas does;
- `.iloc[0]` / `.iloc[-1]` are `List.head?` / `List.getLast?`, with the
  out-of-bounds failure represented by `PdError.indexOOB`;
- fallible operations return `Except PdError`; a Python `for` loop whose
  body can raise is `mapE`, which stops at the first error;
- `Series.mean/max/min` on a nonempty numeric series are the exact
  rational mean and `listMax`/`listMin`; the `:.1f` formatting of the
  printed mean is `fmt1` (round to one decimal place; exact rational
  arithmetic stands in for float64);
- the f-string rendering of the integer timestamp is `natStr`, standard
  decimal notation of a natural number.
-/

/-- Errors the pandas layer can raise: a missing column name
(`KeyError`) or a positional lookup out of bounds (`IndexError`). -/
inductive PdError where
  | keyError (key : String)
  | indexOOB
deriving DecidableEq

/-- The loaded DataFrame: header names in file order, and the data rows,
each row listing its cell values in header order. -/
structure Table where
  columns : List String
  rows : List (List ℚ)
deriving DecidableEq

/-- Well-formedness of a parsed CSV table: every row has exactly one cell
per header column. -/
def Table.WF (t : Table) : Prop := ∀ r ∈ t.rows, r.length = t.columns.length

/-- Index of the first occurrence of a name in the header, as pandas
column lookup resolves it. -/
def colIdx (c : String) : List String → Option Nat
  | [] => none
  | x :: xs => if x = c then some 0 else (colIdx c xs).map (· + 1)

/-- `data[c]`: project every row at the column's index; `KeyError` when
the name is not a column. -/
def Table.col (t : Table) (c : String) : Except PdError (List ℚ) :=
  match colIdx c t.columns with
  | some i => .ok (t.rows.map (fun r => r.getD i 0))
  | none => .error (.keyError c)

/-- The value a single row holds for a named column (0 when the name is
absent; only used at present names). -/
def rowVal (t : Table) (r : List ℚ) (c : String) : ℚ :=
  match colIdx c t.columns with
  | some i => r.getD i 0
  | none => 0

/-- The full column of values for a name, row by row. -/
def colVals (t : Table) (c : String) : List ℚ :=
  t.rows.map (fun r => rowVal t r c)

/-- The non-time columns, in table order: every loop in the script
iterates `data.columns` and skips the name equal to `'TimeStep'`. -/
def speciesColumns (t : Table) : List String :=
  t.columns.filter (fun c => c ≠ "TimeStep")

/-- A Python `for` loop over a list whose body can raise: collect the
results, stopping at the first error. -/
def mapE (f : α → Except PdError β) : List α → Except PdError (List β)
  | [] => .ok []
  | x :: xs =>
    match f x with
    | .error e => .error e
    | .ok y =>
      match mapE f xs with
      | .error e => .error e
      | .ok ys => .ok (y :: ys)

/-- `Series.max()` on the extracted column (`none` on an empty series,
which the script never reaches). -/
def listMax : List ℚ → Option ℚ
  | [] => none
  | v :: vs =>
    some (match listMax vs with
          | none => v
          | some m => max v m)

/-- `Series.min()` on the extracted column. -/
def listMin : List ℚ → Option ℚ
  | [] => none
  | v :: vs =>
    some (match listMin vs with
          | none => v
          | some m => min v m)

/-- The `:.1f` rendering of the mean: round to one decimal place. -/
def fmt1 (q : ℚ) : ℚ := (⌊q * 10 + 1 / 2⌋ : ℚ) / 10

/-- One printed per-species report line (code lines 93-99). -/
structure StatLine where
  species : String
  initial : ℚ
  final : ℚ
  mean : ℚ
  maxVal : ℚ
  minVal : ℚ
deriving DecidableEq

/-- The body of the statistics loop for one column: extract the column,
read `iloc[0]` and `iloc[-1]`, compute mean/max/min, print. -/
def statLine (t : Table) (c : String) : Except PdError StatLine :=
  match t.col c with
  | .error e => .error e
  | .ok vals =>
    match vals.head? with
    | none => .error .indexOOB
    | some initial =>
      match vals.getLast? with
      | none => .error .indexOOB
      | some final =>
        .ok ⟨c, initial, final, fmt1 (vals.sum / (vals.length : ℚ)),
             (listMax vals).getD 0, (listMin vals).getD 0⟩

/-- The statistics loop over all non-time columns, in table order. -/
def statLines (t : Table) : Except PdError (List StatLine) :=
  mapE (statLine t) (speciesColumns t)

/-- Everything `print_statistics` prints: the per-species lines, the row
count, and the two aggregate totals. -/
structure Report where
  lines : List StatLine
  totalTimesteps : Nat
  initialTotal : ℚ
  finalTotal : ℚ
deriving DecidableEq

/-- `print_statistics` (code lines 82-105): the per-species loop, then
`len(data)`, then `data.iloc[0].sum() - data['TimeStep'].iloc[0]` and the
same at the last row. -/
def print_statistics (t : Table) : Except PdError Report :=
  match statLines t with
  | .error e => .error e
  | .ok lines =>
    match t.rows.head? with
    | none => .error .indexOOB
    | some firstRow =>
      match t.col "TimeStep" with
      | .error e => .error e
      | .ok ts =>
        match ts.head? with
        | none => .error .indexOOB
        | some ts0 =>
          match t.rows.getLast? with
          | none => .error .indexOOB
          | some lastRow =>
            match ts.getLast? with
            | none => .error .indexOOB
            | some tsN =>
              .ok ⟨lines, t.rows.length, firstRow.sum - ts0, lastRow.sum - tsN⟩

/-- One drawn line series: its legend label and its x and y data. -/
structure Series where
  name : String
  xs : List ℚ
  ys : List ℚ
deriving DecidableEq

/-- `plt.plot(data['TimeStep'], data[c], label=c)`: both column lookups
can raise `KeyError`. -/
def mkSeries (t : Table) (c : String) : Except PdError Series :=
  match t.col "TimeStep" with
  | .error e => .error e
  | .ok xs =>
    match t.col c with
    | .error e => .error e
    | .ok ys => .ok ⟨c, xs, ys⟩

/-- `plot_all_populations` (code lines 22-39): one series per column
other than `'TimeStep'`, in table order. -/
def plot_all_populations (t : Table) : Except PdError (List Series) :=
  mapE (mkSeries t) (speciesColumns t)

/-- The hardcoded producers group (code line 47). -/
def producers : List String := ["Wildflowers", "Berries", "Aspen", "Spruce"]

/-- The hardcoded herbivores group (code line 57). -/
def herbivores : List String := ["Deer", "Bunny", "FieldMouse", "GroundSquirrel", "Chipmunk"]

/-- The hardcoded predators group (code line 67). -/
def predators : List String := ["Fox", "Coyote", "BlackBear"]

/-- One panel of the trophic chart: iterate the group list and draw each
member that is a table column (`if plant in data.columns`). -/
def panelSeries (t : Table) (group : List String) : Except PdError (List Series) :=
  mapE (mkSeries t) (group.filter (fun c => c ∈ t.columns))

/-- The three panels of the trophic-levels chart. -/
structure TrophicChart where
  producersPanel : List Series
  herbivoresPanel : List Series
  predatorsPanel : List Series
deriving DecidableEq

/-- `plot_trophic_levels` (code lines 41-80): the three panels, drawn in
group-list order. -/
def plot_trophic_levels (t : Table) : Except PdError TrophicChart :=
  match panelSeries t producers with
  | .error e => .error e
  | .ok p =>
    match panelSeries t herbivores with
    | .error e => .error e
    | .ok h =>
      match panelSeries t predators with
      | .error e => .error e
      | .ok pr => .ok ⟨p, h, pr⟩

/-- Little-endian decimal digits of a natural number (always nonempty,
`[0]` for zero, matching `str(0) = "0"`). -/
def digitsLE (n : Nat) : List Nat :=
  if _ : n < 10 then [n] else n % 10 :: digitsLE (n / 10)
termination_by n
decreasing_by exact Nat.div_lt_self (by omega) (by omega)

/-- The ASCII character of one decimal digit. -/
def digitChar (d : Nat) : Char := Char.ofNat (48 + d)

/-- `str(n)` for a nonnegative integer: its decimal digit string. -/
def natStr (n : Nat) : String := ⟨(digitsLE n).reverse.map digitChar⟩

/-- The first chart's file name, `f'population_dynamics_{timestamp}.png'`. -/
def popFilename (ts : Nat) : String :=
  "population_dynamics_" ++ natStr ts ++ ".png"

/-- The second chart's file name, `f'trophic_levels_{timestamp}.png'`. -/
def trophFilename (ts : Nat) : String :=
  "trophic_levels_" ++ natStr ts ++ ".png"

/-- The chart files one run with embedded timestamp `ts` writes. -/
def chartNames (ts : Nat) : List String := [popFilename ts, trophFilename ts]

/-- The ambient file system, as far as the script observes it:
`os.path.exists` and the table `pd.read_csv` would parse from a path. -/
structure FS where
  fileExists : String → Bool
  readCsv : String → Table

/-- `load_data` (code lines 12-20): check existence; on a missing path
print `Error: {filename} not found` and `sys.exit(1)`; otherwise parse
and report the row and species counts. -/
def load_data (fs : FS) (filename : String) : Except (String × Nat) (Table × String) :=
  if fs.fileExists filename then
    let data := fs.readCsv filename
    .ok (data, "Loaded " ++ natStr data.rows.length ++ " timesteps with " ++
               natStr (data.columns.length - 1) ++ " species")
  else
    .error ("Error: " ++ filename ++ " not found", 1)

/-- The chart files a whole `main` run writes: nothing once any step
fails, the first chart alone if only `plot_trophic_levels` fails, both on
success. `main` always loads `'ecosystem_data.csv'`. -/
def mainFiles (fs : FS) (ts : Nat) : List String :=
  match load_data fs "ecosystem_data.csv" with
  | .error _ => []
  | .ok (data, _) =>
    match print_statistics data with
    | .error _ => []
    | .ok _ =>
      match plot_all_populations data with
      | .error _ => []
      | .ok _ =>
        match plot_trophic_levels data with
        | .error _ => [popFilename ts]
        | .ok _ => [popFilename ts, trophFilename ts]

/-- Each pipeline stage paired with the table it leaves behind: the
Python bodies contain no assignment into `data`, so each stage returns
its input table. -/
def print_statistics_run (t : Table) : Except PdError Report × Table :=
  (print_statistics t, t)

/-- `plot_all_populations` as a stage of the stateful pipeline. -/
def plot_all_populations_run (t : Table) : Except PdError (List Series) × Table :=
  (plot_all_populations t, t)

/-- `plot_trophic_levels` as a stage of the stateful pipeline. -/
def plot_trophic_levels_run (t : Table) : Except PdError TrophicChart × Table :=
  (plot_trophic_levels t, t)

/-- The `main` pipeline after loading, threading the table through the
reporter and both plotters and returning the final table. -/
def pipeline_run (t : Table) :
    (Except PdError Report × Except PdError (List Series) × Except PdError TrophicChart) × Table :=
  let (rep, t1) := print_statistics_run t
  let (allp, t2) := plot_all_populations_run t1
  let (troph, t3) := plot_trophic_levels_run t2
  ((rep, allp, troph), t3)

/-- The report line the spec describes for one column, phrased over the
rows directly: first row's value, last row's value, formatted mean, and
the column's max and min. -/
def specLine (t : Table) (r0 rN : List ℚ) (c : String) : StatLine :=
  ⟨c, rowVal t r0 c, rowVal t rN c,
   fmt1 ((colVals t c).sum / ((colVals t c).length : ℚ)),
   (listMax (colVals t c)).getD 0, (listMin (colVals t c)).getD 0⟩

/-- The series the spec describes for one column: the time column as x
values, the column's values as y. -/
def specSeries (t : Table) (c : String) : Series :=
  ⟨c, colVals t "TimeStep", colVals t c⟩

/-- Value of a little-endian decimal digit list. -/
def ofDigitsLE : List Nat → Nat
  | [] => 0
  | d :: ds => d + 10 * ofDigitsLE ds

/-- The spec's running example: `TimeStep, Deer, Wildflowers, Fox,
UnknownCritter` over 5 rows. -/
def exampleTable : Table :=
  ⟨["TimeStep", "Deer", "Wildflowers", "Fox", "UnknownCritter"],
   [[0, 10, 50, 3, 7], [1, 11, 48, 4, 7], [2, 12, 47, 4, 6],
    [3, 12, 45, 5, 6], [4, 13, 44, 5, 5]]⟩

/-- A table whose producer columns appear in the header in the order
`Berries, Wildflowers`, the reverse of the hardcoded group order. -/
def reorderedTable : Table :=
  ⟨["TimeStep", "Berries", "Wildflowers"], [[0, 1, 2]]⟩

/-- A table with a lowercase `timestep` column and no `TimeStep`. -/
def lowercaseTable : Table := ⟨["timestep", "Deer"], [[0, 1]]⟩

/-- A table with a header but no data rows. -/
def emptyRowsTable : Table := ⟨["TimeStep", "Deer"], []⟩

/-- A file system on which every path is missing. -/
def emptyFS : FS := ⟨fun _ => false, fun _ => ⟨[], []⟩⟩

/-- A file system holding the example table at every path. -/
def exampleFS : FS := ⟨fun _ => true, fun _ => exampleTable⟩

/-! ## Helper lemmas -/

theorem mem_of_head?_eq {l : List α} {a : α} (h : l.head? = some a) : a ∈ l := by
  cases l with
  | nil => simp at h
  | cons x xs =>
    simp at h
    exact h ▸ List.mem_cons_self x xs

theorem mem_of_getLast?_eq {l : List α} {a : α} (h : l.getLast? = some a) : a ∈ l := by
  induction l with
  | nil => simp at h
  | cons x xs ih =>
    cases xs with
    | nil =>
      simp [List.getLast?] at h
      exact h ▸ List.mem_cons_self x []
    | cons y ys =>
      rw [List.getLast?_cons_cons] at h
      exact List.mem_cons_of_mem x (ih h)

theorem head?_eq_some_of_ne_nil {l : List α} (h : l ≠ []) : ∃ a, l.head? = some a := by
  cases l with
  | nil => exact absurd rfl h
  | cons x xs => exact ⟨x, rfl⟩

theorem getLast?_eq_some_of_ne_nil {l : List α} (h : l ≠ []) : ∃ a, l.getLast? = some a := by
  induction l with
  | nil => exact absurd rfl h
  | cons x xs ih =>
    cases xs with
    | nil => exact ⟨x, rfl⟩
    | cons y ys =>
      obtain ⟨a, ha⟩ := ih (by simp)
      exact ⟨a, by rw [List.getLast?_cons_cons]; exact ha⟩

theorem colIdx_of_mem {c : String} {cols : List String} (h : c ∈ cols) :
    ∃ i, colIdx c cols = some i := by
  induction cols with
  | nil => simp at h
  | cons x xs ih =>
    by_cases hx : x = c
    · exact ⟨0, by simp [colIdx, hx]⟩
    · have hc : c ∈ xs := by
        cases h with
        | head => exact absurd rfl hx
        | tail _ hm => exact hm
      obtain ⟨i, hi⟩ := ih hc
      exact ⟨i + 1, by simp [colIdx, hx, hi]⟩

theorem colIdx_of_not_mem {c : String} {cols : List String} (h : c ∉ cols) :
    colIdx c cols = none := by
  induction cols with
  | nil => rfl
  | cons x xs ih =>
    have hx : x ≠ c := fun he => h (he ▸ List.mem_cons_self x xs)
    have hc : c ∉ xs := fun hm => h (List.mem_cons_of_mem x hm)
    simp [colIdx, hx, ih hc]

theorem col_ok_of_mem {t : Table} {c : String} (h : c ∈ t.columns) :
    t.col c = .ok (colVals t c) := by
  obtain ⟨i, hi⟩ := colIdx_of_mem h
  simp [Table.col, hi, colVals, rowVal]

theorem col_err_of_not_mem {t : Table} {c : String} (h : c ∉ t.columns) :
    t.col c = .error (.keyError c) := by
  simp [Table.col, colIdx_of_not_mem h]

theorem mapE_ok {f : α → Except PdError β} {g : α → β} :
    ∀ {l : List α}, (∀ x ∈ l, f x = .ok (g x)) → mapE f l = .ok (l.map g) := by
  intro l
  induction l with
  | nil => intro _; rfl
  | cons x xs ih =>
    intro h
    rw [mapE, h x (List.mem_cons_self x xs), ih (fun y hy => h y (List.mem_cons_of_mem x hy))]
    rfl

theorem mapE_err_head {f : α → Except PdError β} {x : α} {xs : List α} {e : PdError}
    (h : f x = .error e) : mapE f (x :: xs) = .error e := by
  rw [mapE, h]

theorem listMax_eq_none {l : List ℚ} (h : listMax l = none) : l = [] := by
  cases l with
  | nil => rfl
  | cons x xs => simp [listMax] at h

theorem listMax_isSome {l : List ℚ} (h : l ≠ []) : ∃ m, listMax l = some m := by
  cases l with
  | nil => exact absurd rfl h
  | cons x xs => exact ⟨_, rfl⟩

theorem listMax_mem : ∀ {l : List ℚ} {m : ℚ}, listMax l = some m → m ∈ l := by
  intro l
  induction l with
  | nil => intro m h; simp [listMax] at h
  | cons x xs ih =>
    intro m h
    rw [listMax] at h
    cases hx : listMax xs with
    | none =>
      rw [hx] at h
      simp at h
      subst h
      exact List.mem_cons_self x xs
    | some m' =>
      rw [hx] at h
      simp at h
      subst h
      rcases max_choice x m' with hc | hc
      · rw [hc]; exact List.mem_cons_self x xs
      · rw [hc]; exact List.mem_cons_of_mem x (ih hx)

theorem le_listMax : ∀ {l : List ℚ} {m : ℚ}, listMax l = some m → ∀ v ∈ l, v ≤ m := by
  intro l
  induction l with
  | nil => intro m h; simp [listMax] at h
  | cons x xs ih =>
    intro m h v hv
    rw [listMax] at h
    cases hx : listMax xs with
    | none =>
      have hxs : xs = [] := listMax_eq_none hx
      rw [hx] at h
      simp at h
      subst h
      subst hxs
      rcases List.mem_singleton.mp hv with rfl
      exact le_refl v
    | some m' =>
      rw [hx] at h
      simp at h
      subst h
      cases hv with
      | head => exact le_max_left x m'
      | tail _ hm => exact le_trans (ih hx v hm) (le_max_right x m')

theorem listMin_eq_none {l : List ℚ} (h : listMin l = none) : l = [] := by
  cases l with
  | nil => rfl
  | cons x xs => simp [listMin] at h

theorem listMin_isSome {l : List ℚ} (h : l ≠ []) : ∃ m, listMin l = some m := by
  cases l with
  | nil => exact absurd rfl h
  | cons x xs => exact ⟨_, rfl⟩

theorem listMin_mem : ∀ {l : List ℚ} {m : ℚ}, listMin l = some m → m ∈ l := by
  intro l
  induction l with
  | nil => intro m h; simp [listMin] at h
  | cons x xs ih =>
    intro m h
    rw [listMin] at h
    cases hx : listMin xs with
    | none =>
      rw [hx] at h
      simp at h
      subst h
      exact List.mem_cons_self x xs
    | some m' =>
      rw [hx] at h
      simp at h
      subst h
      rcases min_choice x m' with hc | hc
      · rw [hc]; exact List.mem_cons_self x xs
      · rw [hc]; exact List.mem_cons_of_mem x (ih hx)

theorem listMin_le : ∀ {l : List ℚ} {m : ℚ}, listMin l = some m → ∀ v ∈ l, m ≤ v := by
  intro l
  induction l with
  | nil => intro m h; simp [listMin] at h
  | cons x xs ih =>
    intro m h v hv
    rw [listMin] at h
    cases hx : listMin xs with
    | none =>
      have hxs : xs = [] := listMin_eq_none hx
      rw [hx] at h
      simp at h
      subst h
      subst hxs
      rcases List.mem_singleton.mp hv with rfl
      exact le_refl v
    | some m' =>
      rw [hx] at h
      simp at h
      subst h
      cases hv with
      | head => exact min_le_left x m'
      | tail _ hm => exact le_trans (min_le_right x m') (ih hx v hm)

theorem colVals_ne_nil {t : Table} (c : String) (h : t.rows ≠ []) : colVals t c ≠ [] := by
  simp [colVals, h]

theorem colVals_head? {t : Table} (c : String) {r0 : List ℚ} (h0 : t.rows.head? = some r0) :
    (colVals t c).head? = some (rowVal t r0 c) := by
  simp [colVals, List.head?_map, h0]

theorem colVals_getLast? {t : Table} (c : String) {rN : List ℚ}
    (hN : t.rows.getLast? = some rN) :
    (colVals t c).getLast? = some (rowVal t rN c) := by
  simp [colVals, List.getLast?_map, hN]

theorem statLine_ok {t : Table} {c : String} {r0 rN : List ℚ}
    (hc : c ∈ t.columns) (h0 : t.rows.head? = some r0) (hN : t.rows.getLast? = some rN) :
    statLine t c = .ok (specLine t r0 rN c) := by
  simp only [statLine, col_ok_of_mem hc, colVals_head? c h0, colVals_getLast? c hN, specLine]

theorem statLines_ok {t : Table} {r0 rN : List ℚ}
    (h0 : t.rows.head? = some r0) (hN : t.rows.getLast? = some rN) :
    statLines t = .ok ((speciesColumns t).map (specLine t r0 rN)) :=
  mapE_ok (fun _ hc => statLine_ok (List.mem_of_mem_filter hc) h0 hN)

theorem mkSeries_ok {t : Table} {c : String} (hts : "TimeStep" ∈ t.columns)
    (hc : c ∈ t.columns) : mkSeries t c = .ok (specSeries t c) := by
  simp only [mkSeries, col_ok_of_mem hts, col_ok_of_mem hc, specSeries]

theorem plot_all_ok {t : Table} (hts : "TimeStep" ∈ t.columns) :
    plot_all_populations t = .ok ((speciesColumns t).map (specSeries t)) :=
  mapE_ok (fun _ hc => mkSeries_ok hts (List.mem_of_mem_filter hc))

theorem panelSeries_ok {t : Table} (hts : "TimeStep" ∈ t.columns) (group : List String) :
    panelSeries t group =
      .ok ((group.filter (fun c => c ∈ t.columns)).map (specSeries t)) :=
  mapE_ok (fun _ hc => mkSeries_ok hts (of_decide_eq_true (List.mem_filter.mp hc).2))

theorem plot_trophic_ok {t : Table} (hts : "TimeStep" ∈ t.columns) :
    plot_trophic_levels t = .ok
      ⟨(producers.filter (fun c => c ∈ t.columns)).map (specSeries t),
       (herbivores.filter (fun c => c ∈ t.columns)).map (specSeries t),
       (predators.filter (fun c => c ∈ t.columns)).map (specSeries t)⟩ := by
  rw [plot_trophic_levels, panelSeries_ok hts producers, panelSeries_ok hts herbivores,
      panelSeries_ok hts predators]

theorem map_name_specSeries (t : Table) : ∀ l : List String,
    (l.map (specSeries t)).map Series.name = l := by
  intro l
  induction l with
  | nil => rfl
  | cons x xs ih => simpa [specSeries] using ih

theorem map_species_specLine (t : Table) (r0 rN : List ℚ) : ∀ l : List String,
    (l.map (specLine t r0 rN)).map StatLine.species = l := by
  intro l
  induction l with
  | nil => rfl
  | cons x xs ih => simpa [specLine] using ih

theorem map_colIdx_getD :
    ∀ (cols : List String) (r : List ℚ), cols.Nodup → r.length = cols.length →
      (cols.map (fun c => match colIdx c cols with
                          | some i => r.getD i 0
                          | none => 0)) = r := by
  intro cols
  induction cols with
  | nil =>
    intro r _ hr
    simpa using List.length_eq_zero.mp hr
  | cons x xs ih =>
    intro r hnd hr
    cases r with
    | nil => simp at hr
    | cons v vs =>
      have hx : x ∉ xs := (List.nodup_cons.mp hnd).1
      have hnd' : xs.Nodup := (List.nodup_cons.mp hnd).2
      have hlen : vs.length = xs.length := by simpa using hr
      have htail : xs.map (fun c => match colIdx c (x :: xs) with
                     | some i => (v :: vs).getD i 0
                     | none => 0)
                 = xs.map (fun c => match colIdx c xs with
                     | some i => vs.getD i 0
                     | none => 0) := by
        apply List.map_congr_left
        intro c hc
        have hxc : x ≠ c := fun he => hx (he ▸ hc)
        simp only [colIdx, if_neg hxc]
        cases colIdx c xs with
        | none => rfl
        | some i => rfl
      rw [List.map_cons, htail, ih vs hnd' hlen]
      congr 1
      simp [colIdx]

theorem sum_rowVal (t : Table) {r : List ℚ} (hnd : t.columns.Nodup)
    (hlen : r.length = t.columns.length) :
    (t.columns.map (fun c => rowVal t r c)).sum = r.sum := by
  have h := map_colIdx_getD t.columns r hnd hlen
  calc (t.columns.map (fun c => rowVal t r c)).sum
      = (t.columns.map (fun c => match colIdx c t.columns with
          | some i => r.getD i 0
          | none => 0)).sum := rfl
    _ = r.sum := by rw [h]

theorem sum_map_filter_ne (f : String → ℚ) :
    ∀ (cols : List String) (a : String), cols.Nodup → a ∈ cols →
      ((cols.filter (fun c => c ≠ a)).map f).sum = (cols.map f).sum - f a := by
  intro cols
  induction cols with
  | nil => intro a _ ha; simp at ha
  | cons x xs ih =>
    intro a hnd ha
    have hx : x ∉ xs := (List.nodup_cons.mp hnd).1
    have hnd' : xs.Nodup := (List.nodup_cons.mp hnd).2
    by_cases hxa : x = a
    · subst hxa
      have hfil : xs.filter (fun c => c ≠ x) = xs :=
        List.filter_eq_self.mpr (fun b hb => decide_eq_true (fun he => hx (he ▸ hb)))
      simp only [List.filter_cons]
      rw [if_neg (by simp), hfil]
      simp only [List.map_cons, List.sum_cons]
      ring
    · have ha' : a ∈ xs := by
        cases ha with
        | head => exact absurd rfl hxa
        | tail _ h => exact h
      have hrec := ih a hnd' ha'
      simp only [List.filter_cons, List.map_cons, List.sum_cons]
      rw [if_pos (decide_eq_true hxa)]
      simp only [List.map_cons, List.sum_cons, hrec]
      ring

theorem ofDigitsLE_digitsLE (n : Nat) : ofDigitsLE (digitsLE n) = n := by
  induction n using Nat.strong_induction_on with
  | _ n ih =>
    rw [digitsLE]
    split
    · simp [ofDigitsLE]
    · rw [ofDigitsLE, ih (n / 10) (Nat.div_lt_self (by omega) (by omega))]
      omega

theorem digitsLE_lt_ten (n : Nat) : ∀ d ∈ digitsLE n, d < 10 := by
  induction n using Nat.strong_induction_on with
  | _ n ih =>
    rw [digitsLE]
    split
    · rename_i h
      intro d hd
      simp at hd
      omega
    · intro d hd
      rcases List.mem_cons.mp hd with rfl | hd'
      · omega
      · exact ih (n / 10) (Nat.div_lt_self (by omega) (by omega)) d hd'

theorem digitsLE_inj {a b : Nat} (h : digitsLE a = digitsLE b) : a = b := by
  have hc := congrArg ofDigitsLE h
  rwa [ofDigitsLE_digitsLE, ofDigitsLE_digitsLE] at hc

theorem digitChar_inj_lt : ∀ d1 < 10, ∀ d2 < 10, digitChar d1 = digitChar d2 → d1 = d2 := by
  decide

theorem map_digitChar_inj : ∀ (l1 l2 : List Nat), (∀ d ∈ l1, d < 10) → (∀ d ∈ l2, d < 10) →
    l1.map digitChar = l2.map digitChar → l1 = l2 := by
  intro l1
  induction l1 with
  | nil =>
    intro l2 _ _ h
    cases l2 with
    | nil => rfl
    | cons y ys => simp at h
  | cons x xs ih =>
    intro l2 h1 h2 h
    cases l2 with
    | nil => simp at h
    | cons y ys =>
      simp only [List.map_cons, List.cons.injEq] at h
      have hx := h1 x (List.mem_cons_self x xs)
      have hy := h2 y (List.mem_cons_self y ys)
      have hxy := digitChar_inj_lt x hx y hy h.1
      rw [hxy, ih ys (fun d hd => h1 d (List.mem_cons_of_mem x hd))
            (fun d hd => h2 d (List.mem_cons_of_mem y hd)) h.2]

theorem natStr_inj {a b : Nat} (h : natStr a = natStr b) : a = b := by
  have hd := congrArg String.data h
  have hrev : (digitsLE a).reverse = (digitsLE b).reverse :=
    map_digitChar_inj _ _ (fun d hdm => digitsLE_lt_ten a d (List.mem_reverse.mp hdm))
      (fun d hdm => digitsLE_lt_ten b d (List.mem_reverse.mp hdm)) hd
  have hdig : digitsLE a = digitsLE b := by
    have hc := congrArg List.reverse hrev
    simpa using hc
  exact digitsLE_inj hdig

theorem popFilename_inj {a b : Nat} (h : popFilename a = popFilename b) : a = b := by
  have hd := congrArg String.data h
  simp only [popFilename, String.data_append] at hd
  exact natStr_inj (String.ext (List.append_cancel_left (List.append_cancel_right hd)))

theorem trophFilename_inj {a b : Nat} (h : trophFilename a = trophFilename b) : a = b := by
  have hd := congrArg String.data h
  simp only [trophFilename, String.data_append] at hd
  exact natStr_inj (String.ext (List.append_cancel_left (List.append_cancel_right hd)))

theorem popFilename_head (ts : Nat) : (popFilename ts).data.head? = some 'p' := by
  simp only [popFilename, String.data_append]
  rfl

theorem trophFilename_head (ts : Nat) : (trophFilename ts).data.head? = some 't' := by
  simp only [trophFilename, String.data_append]
  rfl

theorem popFilename_ne_trophFilename (a b : Nat) : popFilename a ≠ trophFilename b := by
  intro h
  have h2 : some 'p' = some 't' := by
    rw [← popFilename_head a, ← trophFilename_head b, h]
  exact absurd h2 (by decide)

theorem chartNames_disjoint {a b : Nat} (h : a ≠ b) :
    (chartNames a).Disjoint (chartNames b) := by
  intro x hxa hxb
  simp only [chartNames, List.mem_cons, List.not_mem_nil, or_false] at hxa hxb
  rcases hxa with rfl | rfl <;> rcases hxb with he | he
  · exact h (popFilename_inj he)
  · exact popFilename_ne_trophFilename a b he
  · exact popFilename_ne_trophFilename b a he.symm
  · exact h (trophFilename_inj he)

theorem mainFiles_subset (fs : FS) (ts : Nat) : mainFiles fs ts ⊆ chartNames ts := by
  intro x hx
  rw [mainFiles] at hx
  split at hx
  · simp at hx
  · split at hx
    · simp at hx
    · split at hx
      · simp at hx
      · split at hx
        · simp only [List.mem_singleton] at hx
          simp [chartNames, hx]
        · exact hx

/-! ## Claim theorems -/

/-- C1: for every loaded table with at least one row, the reporter emits
exactly one line per non-time column (K lines for K non-time columns, in
table order); each line's printed initial is that column's value in the
first row, the printed final its value in the last row, the printed mean
the arithmetic mean of the column formatted to one decimal place, and
the printed max and min the column's true maximum and minimum. -/
theorem print_statistics_per_species (t : Table) (r0 rN : List ℚ)
    (h0 : t.rows.head? = some r0) (hN : t.rows.getLast? = some rN) :
    ∃ lines, statLines t = .ok lines ∧
      lines.length = (speciesColumns t).length ∧
      lines.map StatLine.species = speciesColumns t ∧
      ∀ ln ∈ lines,
        ln.initial = rowVal t r0 ln.species ∧
        ln.final = rowVal t rN ln.species ∧
        ln.mean = fmt1 ((colVals t ln.species).sum / ((colVals t ln.species).length : ℚ)) ∧
        ln.maxVal ∈ colVals t ln.species ∧
        (∀ v ∈ colVals t ln.species, v ≤ ln.maxVal) ∧
        ln.minVal ∈ colVals t ln.species ∧
        (∀ v ∈ colVals t ln.species, ln.minVal ≤ v) := by
  refine ⟨_, statLines_ok h0 hN, by simp, map_species_specLine t r0 rN _, ?_⟩
  intro ln hln
  obtain ⟨c, hc, rfl⟩ := List.mem_map.mp hln
  have hrows : t.rows ≠ [] := by
    intro he
    rw [he] at h0
    simp at h0
  have hcv : colVals t c ≠ [] := colVals_ne_nil c hrows
  obtain ⟨mx, hmx⟩ := listMax_isSome hcv
  obtain ⟨mn, hmn⟩ := listMin_isSome hcv
  simp only [specLine]
  refine ⟨trivial, trivial, trivial, ?_, ?_, ?_, ?_⟩
  · rw [hmx, Option.getD_some]
    exact listMax_mem hmx
  · rw [hmx, Option.getD_some]
    exact le_listMax hmx
  · rw [hmn, Option.getD_some]
    exact listMin_mem hmn
  · rw [hmn, Option.getD_some]
    exact listMin_le hmn

/-- C2: for every loaded table with at least one row (well-formed, with
distinct header names including `TimeStep`), the printed initial total
population is the sum of the species (non-time) columns at the first row
and the printed final total the same sum at the last row; the time
column's value is excluded from both. -/
theorem total_population_correct (t : Table) (hwf : t.WF) (hnd : t.columns.Nodup)
    (hts : "TimeStep" ∈ t.columns) (r0 rN : List ℚ)
    (h0 : t.rows.head? = some r0) (hN : t.rows.getLast? = some rN) :
    ∃ rep, print_statistics t = .ok rep ∧
      rep.initialTotal = ((speciesColumns t).map (fun c => rowVal t r0 c)).sum ∧
      rep.finalTotal = ((speciesColumns t).map (fun c => rowVal t rN c)).sum := by
  simp only [print_statistics, statLines_ok h0 hN, h0, col_ok_of_mem hts,
      colVals_head? "TimeStep" h0, hN, colVals_getLast? "TimeStep" hN]
  refine ⟨_, rfl, ?_, ?_⟩
  · rw [speciesColumns, sum_map_filter_ne (fun c => rowVal t r0 c) t.columns "TimeStep" hnd hts,
        sum_rowVal t hnd (hwf r0 (mem_of_head?_eq h0))]
  · rw [speciesColumns, sum_map_filter_ne (fun c => rowVal t rN c) t.columns "TimeStep" hnd hts,
        sum_rowVal t hnd (hwf rN (mem_of_getLast?_eq hN))]

/-- C9: with zero rows and at least one non-time column the reporter hits
the out-of-bounds error branch (`iloc[0]` on an empty column); with at
least one row that branch is unreachable — any failure is a missing-key
error, never out-of-bounds. -/
theorem print_statistics_empty_vs_nonempty (t : Table) :
    (t.rows = [] → speciesColumns t ≠ [] → print_statistics t = .error .indexOOB) ∧
    (t.rows ≠ [] → ∀ e, print_statistics t = .error e → e ≠ .indexOOB) := by
  constructor
  · intro hrows hsp
    obtain ⟨c, cs, hcs⟩ : ∃ c cs, speciesColumns t = c :: cs := by
      cases hsc : speciesColumns t with
      | nil => exact absurd hsc hsp
      | cons c cs => exact ⟨c, cs, rfl⟩
    have hc : c ∈ t.columns := List.mem_of_mem_filter (hcs ▸ List.mem_cons_self c cs)
    have hline : statLine t c = .error .indexOOB := by
      rw [statLine, col_ok_of_mem hc]
      have hcv : colVals t c = [] := by simp [colVals, hrows]
      rw [hcv]
      rfl
    have hlines : statLines t = .error .indexOOB := by
      rw [statLines, hcs]
      exact mapE_err_head hline
    rw [print_statistics, hlines]
  · intro hrows e he hoob
    subst hoob
    obtain ⟨r0, h0⟩ := head?_eq_some_of_ne_nil hrows
    obtain ⟨rN, hN⟩ := getLast?_eq_some_of_ne_nil hrows
    rw [print_statistics, statLines_ok h0 hN, h0, hN] at he
    by_cases hts : "TimeStep" ∈ t.columns
    · simp only [col_ok_of_mem hts, colVals_head? "TimeStep" h0,
        colVals_getLast? "TimeStep" hN] at he
      exact Except.noConfusion he
    · rw [col_err_of_not_mem hts] at he
      injection he with h2
      exact PdError.noConfusion h2

/-- C10: the time column is matched only by exact, case-sensitive
equality with `'TimeStep'`: any other name counts as a species column;
on a table with a non-`'TimeStep'` column but no column named exactly
`'TimeStep'`, `plot_all_populations` raises the missing-key error for
`'TimeStep'`; when a `'TimeStep'` column exists that branch is
unreachable and the chart is produced. -/
theorem timestep_match_exact (t : Table) :
    (∀ c ∈ t.columns, c ≠ "TimeStep" → c ∈ speciesColumns t) ∧
    (speciesColumns t ≠ [] → "TimeStep" ∉ t.columns →
      plot_all_populations t = .error (.keyError "TimeStep")) ∧
    ("TimeStep" ∈ t.columns → ∃ ss, plot_all_populations t = .ok ss) := by
  refine ⟨?_, ?_, ?_⟩
  · intro c hc hne
    exact List.mem_filter.mpr ⟨hc, decide_eq_true hne⟩
  · intro hsp hts
    obtain ⟨c, cs, hcs⟩ : ∃ c cs, speciesColumns t = c :: cs := by
      cases hsc : speciesColumns t with
      | nil => exact absurd hsc hsp
      | cons c cs => exact ⟨c, cs, rfl⟩
    have hmk : mkSeries t c = .error (.keyError "TimeStep") := by
      rw [mkSeries, col_err_of_not_mem hts]
    rw [plot_all_populations, hcs]
    exact mapE_err_head hmk
  · intro hts
    exact ⟨_, plot_all_ok hts⟩

/-- C4: in the trophic-levels chart (drawn whenever the x-axis column
`'TimeStep'` exists), a column appears in a panel exactly when its name
is both a table column and a member of that panel's hardcoded group; a
table column matching no group appears in no panel, and its presence
causes no error. -/
theorem trophic_panel_membership (t : Table) (hts : "TimeStep" ∈ t.columns) :
    ∃ ch, plot_trophic_levels t = .ok ch ∧
      (∀ c, c ∈ ch.producersPanel.map Series.name ↔ c ∈ t.columns ∧ c ∈ producers) ∧
      (∀ c, c ∈ ch.herbivoresPanel.map Series.name ↔ c ∈ t.columns ∧ c ∈ herbivores) ∧
      (∀ c, c ∈ ch.predatorsPanel.map Series.name ↔ c ∈ t.columns ∧ c ∈ predators) ∧
      (∀ c, c ∉ producers → c ∉ herbivores → c ∉ predators →
        c ∉ ch.producersPanel.map Series.name ∧
        c ∉ ch.herbivoresPanel.map Series.name ∧
        c ∉ ch.predatorsPanel.map Series.name) := by
  refine ⟨_, plot_trophic_ok hts, ?_, ?_, ?_, ?_⟩
  · intro c
    rw [map_name_specSeries t]
    simp only [List.mem_filter, decide_eq_true_eq]
    exact and_comm
  · intro c
    rw [map_name_specSeries t]
    simp only [List.mem_filter, decide_eq_true_eq]
    exact and_comm
  · intro c
    rw [map_name_specSeries t]
    simp only [List.mem_filter, decide_eq_true_eq]
    exact and_comm
  · intro c hp hh hpr
    simp only [map_name_specSeries t, List.mem_filter, decide_eq_true_eq]
    exact ⟨fun h => hp h.1, fun h => hh h.1, fun h => hpr h.1⟩

/-- C5: in the all-populations chart (drawn whenever `'TimeStep'`
exists), exactly one series is drawn per non-time column, in table
order, each labelled by its column name, with the time column as x
values and the column's values as y values. -/
theorem all_populations_series (t : Table) (hts : "TimeStep" ∈ t.columns) :
    ∃ ss, plot_all_populations t = .ok ss ∧
      ss.length = (speciesColumns t).length ∧
      ss.map Series.name = speciesColumns t ∧
      ∀ s ∈ ss, s.xs = colVals t "TimeStep" ∧ s.ys = colVals t s.name := by
  refine ⟨_, plot_all_ok hts, by simp, map_name_specSeries t _, ?_⟩
  intro s hs
  obtain ⟨c, hc, rfl⟩ := List.mem_map.mp hs
  exact ⟨rfl, rfl⟩

/-- C6 counterexample: on a table whose producer columns appear in the
header as `Berries, Wildflowers`, the producers panel draws
`Wildflowers` before `Berries` — the hardcoded group-list order, not the
table column order the claim asserts. -/
theorem trophic_order_not_table_order :
    ∃ ch, plot_trophic_levels reorderedTable = .ok ch ∧
      ch.producersPanel.map Series.name = ["Wildflowers", "Berries"] ∧
      reorderedTable.columns.filter (fun c => c ∈ producers) = ["Berries", "Wildflowers"] ∧
      ch.producersPanel.map Series.name ≠
        reorderedTable.columns.filter (fun c => c ∈ producers) := by
  refine ⟨_, rfl, ?_, ?_, ?_⟩
  · rfl
  · rfl
  · decide

/-- C6 (amended): the report lines and the all-populations series follow
the table's column order (the header insertion order), but each panel of
the trophic-levels chart draws its series in the hardcoded group-list
order, restricted to the columns present. -/
theorem output_order (t : Table) (hts : "TimeStep" ∈ t.columns) (r0 rN : List ℚ)
    (h0 : t.rows.head? = some r0) (hN : t.rows.getLast? = some rN) :
    (∃ lines, statLines t = .ok lines ∧
       lines.map StatLine.species = speciesColumns t) ∧
    (∃ ss, plot_all_populations t = .ok ss ∧ ss.map Series.name = speciesColumns t) ∧
    (∃ ch, plot_trophic_levels t = .ok ch ∧
       ch.producersPanel.map Series.name = producers.filter (fun c => c ∈ t.columns) ∧
       ch.herbivoresPanel.map Series.name = herbivores.filter (fun c => c ∈ t.columns) ∧
       ch.predatorsPanel.map Series.name = predators.filter (fun c => c ∈ t.columns)) :=
  ⟨⟨_, statLines_ok h0 hN, map_species_specLine t r0 rN _⟩,
   ⟨_, plot_all_ok hts, map_name_specSeries t _⟩,
   ⟨_, plot_trophic_ok hts, map_name_specSeries t _, map_name_specSeries t _,
    map_name_specSeries t _⟩⟩

/-- C3: loading a path with no file prints `Error: <path> not found` and
terminates with exit code 1, and a run whose input file is missing
produces no chart file; on an existing path the existence check passes
and loading succeeds. -/
theorem load_data_missing_file (fs : FS) (p : String) (ts : Nat) :
    (fs.fileExists p = false →
      load_data fs p = .error ("Error: " ++ p ++ " not found", 1)) ∧
    (fs.fileExists "ecosystem_data.csv" = false → mainFiles fs ts = []) ∧
    (fs.fileExists p = true → ∃ out, load_data fs p = .ok out) := by
  refine ⟨?_, ?_, ?_⟩
  · intro h
    simp [load_data, h]
  · intro h
    simp [mainFiles, load_data, h]
  · intro h
    refine ⟨(fs.readCsv p,
      "Loaded " ++ natStr (fs.readCsv p).rows.length ++ " timesteps with " ++
        natStr ((fs.readCsv p).columns.length - 1) ++ " species"), ?_⟩
    simp [load_data, h]

/-- C7 counterexample: the embedded timestamp is the wall-clock time in
whole seconds, so two runs within the same second embed the same value
(here both 5); they write the same two chart files, and the second run
overwrites the first — the claim's "the embedded timestamps differ" does
not hold of every pair of consecutive runs. -/
theorem same_second_runs_overwrite :
    mainFiles exampleFS 5 = [popFilename 5, trophFilename 5] ∧
    ¬ (mainFiles exampleFS 5).Disjoint (mainFiles exampleFS 5) := by
  have hm : mainFiles exampleFS 5 = [popFilename 5, trophFilename 5] := rfl
  refine ⟨hm, fun h => ?_⟩
  have hmem : popFilename 5 ∈ mainFiles exampleFS 5 := by
    rw [hm]
    exact List.mem_cons_self _ _
  exact h hmem hmem

/-- C7 (amended): each run's chart files are
`population_dynamics_<ts>.png` and `trophic_levels_<ts>.png` with the
run's embedded integer timestamp; two runs whose embedded timestamps
differ write disjoint sets of chart files (runs in the same second embed
equal timestamps and do overwrite). -/
theorem chart_files_distinct_timestamps (fs1 fs2 : FS) (ts1 ts2 : Nat) (h : ts1 ≠ ts2) :
    mainFiles fs1 ts1 ⊆ chartNames ts1 ∧
    mainFiles fs2 ts2 ⊆ chartNames ts2 ∧
    (mainFiles fs1 ts1).Disjoint (mainFiles fs2 ts2) := by
  refine ⟨mainFiles_subset fs1 ts1, mainFiles_subset fs2 ts2, ?_⟩
  intro x hx1 hx2
  exact chartNames_disjoint h (mainFiles_subset fs1 ts1 hx1) (mainFiles_subset fs2 ts2 hx2)

/-- C8: the reporter and the two plotters never mutate the table: the
source assigns nothing into `data`, so the pipeline threads the table
through all three stages unchanged — after they run, every row and every
column equals its value at load time, and each stage's output is a pure
function of that table. -/
theorem pipeline_table_unchanged (t : Table) :
    (pipeline_run t).2 = t ∧
    (pipeline_run t).2.columns = t.columns ∧
    (pipeline_run t).2.rows = t.rows ∧
    (pipeline_run t).1 =
      (print_statistics t, plot_all_populations t, plot_trophic_levels t) :=
  ⟨rfl, rfl, rfl, rfl⟩

/-! ## Witnesses -/

/-- Witness for C1 at the example table. -/
theorem print_statistics_per_species_witness :
    ∃ lines, statLines exampleTable = .ok lines ∧
      lines.length = (speciesColumns exampleTable).length ∧
      lines.map StatLine.species = speciesColumns exampleTable ∧
      ∀ ln ∈ lines,
        ln.initial = rowVal exampleTable [0, 10, 50, 3, 7] ln.species ∧
        ln.final = rowVal exampleTable [4, 13, 44, 5, 5] ln.species ∧
        ln.mean = fmt1 ((colVals exampleTable ln.species).sum /
          ((colVals exampleTable ln.species).length : ℚ)) ∧
        ln.maxVal ∈ colVals exampleTable ln.species ∧
        (∀ v ∈ colVals exampleTable ln.species, v ≤ ln.maxVal) ∧
        ln.minVal ∈ colVals exampleTable ln.species ∧
        (∀ v ∈ colVals exampleTable ln.species, ln.minVal ≤ v) :=
  print_statistics_per_species exampleTable [0, 10, 50, 3, 7] [4, 13, 44, 5, 5] rfl rfl

/-- Witness for C2 at the example table. -/
theorem total_population_correct_witness :
    ∃ rep, print_statistics exampleTable = .ok rep ∧
      rep.initialTotal = ((speciesColumns exampleTable).map
        (fun c => rowVal exampleTable [0, 10, 50, 3, 7] c)).sum ∧
      rep.finalTotal = ((speciesColumns exampleTable).map
        (fun c => rowVal exampleTable [4, 13, 44, 5, 5] c)).sum :=
  total_population_correct exampleTable
    (by
      show ∀ r ∈ exampleTable.rows, r.length = exampleTable.columns.length
      decide)
    (by decide) (by decide)
    [0, 10, 50, 3, 7] [4, 13, 44, 5, 5] rfl rfl

/-- Witness for C3 on a file system with no files. -/
theorem load_data_missing_file_witness :
    load_data emptyFS "ecosystem_data.csv" =
      .error ("Error: " ++ "ecosystem_data.csv" ++ " not found", 1) ∧
    mainFiles emptyFS 0 = [] :=
  ⟨(load_data_missing_file emptyFS "ecosystem_data.csv" 0).1 rfl,
   (load_data_missing_file emptyFS "ecosystem_data.csv" 0).2.1 rfl⟩

/-- Witness for C4 at the example table. -/
theorem trophic_panel_membership_witness :
    ∃ ch, plot_trophic_levels exampleTable = .ok ch ∧
      (∀ c, c ∈ ch.producersPanel.map Series.name ↔
        c ∈ exampleTable.columns ∧ c ∈ producers) ∧
      (∀ c, c ∈ ch.herbivoresPanel.map Series.name ↔
        c ∈ exampleTable.columns ∧ c ∈ herbivores) ∧
      (∀ c, c ∈ ch.predatorsPanel.map Series.name ↔
        c ∈ exampleTable.columns ∧ c ∈ predators) ∧
      (∀ c, c ∉ producers → c ∉ herbivores → c ∉ predators →
        c ∉ ch.producersPanel.map Series.name ∧
        c ∉ ch.herbivoresPanel.map Series.name ∧
        c ∉ ch.predatorsPanel.map Series.name) :=
  trophic_panel_membership exampleTable (by decide)

/-- Witness for C5 at the example table, which has exactly 4 non-time
columns. -/
theorem all_populations_series_witness :
    (∃ ss, plot_all_populations exampleTable = .ok ss ∧
      ss.length = (speciesColumns exampleTable).length ∧
      ss.map Series.name = speciesColumns exampleTable ∧
      ∀ s ∈ ss, s.xs = colVals exampleTable "TimeStep" ∧
        s.ys = colVals exampleTable s.name) ∧
    (speciesColumns exampleTable).length = 4 :=
  ⟨all_populations_series exampleTable (by decide), by decide⟩

/-- Witness for C6 (amended) at the example table. -/
theorem output_order_witness :
    (∃ lines, statLines exampleTable = .ok lines ∧
       lines.map StatLine.species = speciesColumns exampleTable) ∧
    (∃ ss, plot_all_populations exampleTable = .ok ss ∧
       ss.map Series.name = speciesColumns exampleTable) ∧
    (∃ ch, plot_trophic_levels exampleTable = .ok ch ∧
       ch.producersPanel.map Series.name =
         producers.filter (fun c => c ∈ exampleTable.columns) ∧
       ch.herbivoresPanel.map Series.name =
         herbivores.filter (fun c => c ∈ exampleTable.columns) ∧
       ch.predatorsPanel.map Series.name =
         predators.filter (fun c => c ∈ exampleTable.columns)) :=
  output_order exampleTable (by decide) [0, 10, 50, 3, 7] [4, 13, 44, 5, 5] rfl rfl

/-- Witness for C7 (amended) at timestamps 1 and 2. -/
theorem chart_files_distinct_timestamps_witness :
    mainFiles exampleFS 1 ⊆ chartNames 1 ∧
    mainFiles emptyFS 2 ⊆ chartNames 2 ∧
    (mainFiles exampleFS 1).Disjoint (mainFiles emptyFS 2) :=
  chart_files_distinct_timestamps exampleFS emptyFS 1 2 (by decide)

/-- Witness for C9: the empty-rows table hits the out-of-bounds error;
the example table never can. -/
theorem print_statistics_empty_vs_nonempty_witness :
    print_statistics emptyRowsTable = .error .indexOOB ∧
    (∀ e, print_statistics exampleTable = .error e → e ≠ .indexOOB) :=
  ⟨(print_statistics_empty_vs_nonempty emptyRowsTable).1 rfl (by decide),
   (print_statistics_empty_vs_nonempty exampleTable).2 (by decide)⟩

/-- Witness for C10: a lowercase `timestep` column is a species column
and `plot_all_populations` raises the `TimeStep` key error on that
table; on the example table the chart is produced. -/
theorem timestep_match_exact_witness :
    "timestep" ∈ speciesColumns lowercaseTable ∧
    plot_all_populations lowercaseTable = .error (.keyError "TimeStep") ∧
    (∃ ss, plot_all_populations exampleTable = .ok ss) :=
  ⟨(timestep_match_exact lowercaseTable).1 "timestep" (by decide) (by decide),
   (timestep_match_exact lowercaseTable).2.1 (by decide) (by decide),
   (timestep_match_exact exampleTable).2.2 (by decide)⟩
